import Mathlib

/-!
Shallow embedding of the OpenCANalyzer core (src/can_loader.py and the
trace-engine parts of src/ui_main.py).

Modelling conventions:
* Python floats are modelled as exact rationals (`ℚ`); Python ints as `Int`.
* Fallible Python code (code that may raise) is modelled with `Option`:
  `none` stands for a raised exception at that point.
* pandas DataFrames are modelled as a header list plus rows of cells
  (`CVal` = numeric or string cell, matching pandas numeric/object dtypes).
* External collaborators (pandas `read_csv`, `can.LogReader`,
  `cantools.database.load_file`) are oracles attached to the input:
  their already-parsed output (or `none` for a raise) is a field of
  `InputFile` / an argument of `load_dbc`.
* The decimal rendering of non-integer floats by Python `str` is abstracted
  (no claim exercises it); integer-valued cells render exactly.
-/

/-- A pandas cell / decoded signal value: numeric or string. -/
inductive CVal where
  | num (q : ℚ)
  | str (s : String)
deriving DecidableEq, Repr

/-- Python `str(v)` for a cell.  Integer-valued numerics render as Python
ints do; non-integer numeric rendering is abstracted (unexercised). -/
def pyStr : CVal → String
  | .num q => if q.den = 1 then toString q.num else toString q
  | .str s => s

/-- Value of a decimal digit character. -/
def decDigit? (c : Char) : Option Nat :=
  if c.isDigit then some (c.toNat - '0'.toNat) else none

/-- Fold decimal digits left to right; fails on a non-digit. -/
def decDigitsAux : List Char → Nat → Option Nat
  | [], acc => some acc
  | c :: cs, acc =>
    match decDigit? c with
    | some d => decDigitsAux cs (acc * 10 + d)
    | none => none

/-- Parse a nonempty all-digit string. -/
def decDigits? (cs : List Char) : Option Nat :=
  match cs with
  | [] => none
  | _ => decDigitsAux cs 0

/-- Python `int(s)` on a whitespace-free token: optional sign, then decimal
digits. -/
def parseInt? (s : String) : Option Int :=
  match s.data with
  | '-' :: rest => (decDigits? rest).map (fun n => -(n : Int))
  | '+' :: rest => (decDigits? rest).map (fun n => (n : Int))
  | cs => (decDigits? cs).map (fun n => (n : Int))

/-- Value of a hexadecimal digit character (0-9, a-f, A-F), computed on the
code point: 48..57 are the digits, 97..102 lowercase a..f (value n-87),
65..70 uppercase A..F (value n-55). -/
def hexDigit? (c : Char) : Option Nat :=
  let n := c.toNat
  if 48 ≤ n ∧ n ≤ 57 then some (n - 48)
  else if 97 ≤ n ∧ n ≤ 102 then some (n - 87)
  else if 65 ≤ n ∧ n ≤ 70 then some (n - 55)
  else none

/-- Fold hex digits; fails on a non-hex-digit. -/
def hexDigitsAux : List Char → Nat → Option Nat
  | [], acc => some acc
  | c :: cs, acc =>
    match hexDigit? c with
    | some d => hexDigitsAux cs (acc * 16 + d)
    | none => none

/-- Drop an optional `0x`/`0X` prefix, as Python `int(s, 16)` accepts. -/
def stripHexMarker : List Char → List Char
  | '0' :: 'x' :: rest => rest
  | '0' :: 'X' :: rest => rest
  | cs => cs

/-- Parse a nonempty hex-digit string (after the optional marker). -/
def hexNat? (cs : List Char) : Option Nat :=
  match stripHexMarker cs with
  | [] => none
  | ds => hexDigitsAux ds 0

/-- Python `int(s, 16)` on a whitespace-free token. -/
def parseHexInt? (s : String) : Option Int :=
  match s.data with
  | '-' :: rest => (hexNat? rest).map (fun n => -(n : Int))
  | '+' :: rest => (hexNat? rest).map (fun n => (n : Int))
  | cs => (hexNat? cs).map (fun n => (n : Int))

/-- Strip leading/trailing whitespace (Python `str.strip`). -/
def pyTrim (s : String) : String :=
  String.mk (((s.data.dropWhile Char.isWhitespace).reverse.dropWhile
    Char.isWhitespace).reverse)

/-- Python `str.startswith`. -/
def pyStartsWith (s pre : String) : Bool :=
  pre.data.isPrefixOf s.data

/-- Python `str.lower` (ASCII, which is all the headers use). -/
def pyToLower (s : String) : String :=
  String.mk (s.data.map Char.toLower)

/-- Python `c in s` for a single character. -/
def pyHasChar (s : String) (c : Char) : Bool :=
  s.data.contains c

/-- Accumulating worker for whitespace splitting. -/
def splitWSAux : List Char → List Char → List String
  | [], cur => if cur.isEmpty then [] else [String.mk cur.reverse]
  | c :: cs, cur =>
    if c.isWhitespace then
      if cur.isEmpty then splitWSAux cs []
      else String.mk cur.reverse :: splitWSAux cs []
    else splitWSAux cs (c :: cur)

/-- Python `s.split()`: split on whitespace runs, dropping empty tokens. -/
def pySplit (s : String) : List String :=
  splitWSAux s.data []

/-- Accumulating worker for single-character separator splitting. -/
def splitChAux (sep : Char) : List Char → List Char → List String
  | [], cur => [String.mk cur.reverse]
  | c :: cs, cur =>
    if c = sep then String.mk cur.reverse :: splitChAux sep cs []
    else splitChAux sep cs (c :: cur)

/-- Python `s.split(sep)` for a one-character separator (keeps empties). -/
def pySplitCh (sep : Char) (s : String) : List String :=
  splitChAux sep s.data []

/-- Python list slice `l[a:b]` with a nonnegative start and a possibly
negative stop: a negative stop counts from the end of the list
(`len(l) + b`, floored at 0), and the slice is empty whenever the
effective stop is at or before the start. -/
def pySlice {α : Type} (l : List α) (a : Nat) (b : Int) : List α :=
  let stop : Nat := if b < 0 then ((l.length : Int) + b).toNat else b.toNat
  (l.take stop).drop a

/-- `ui_main.py` / `can_loader.py`: prepend `"0"` when the hex string has odd
length. -/
def padEven (s : String) : String :=
  if s.length % 2 ≠ 0 then "0" ++ s else s

/-- Split a char list into two-character chunks (`data_str[i:i+2]`). -/
def chunkPairs : List Char → List String
  | [] => []
  | [c] => [String.mk [c]]
  | c1 :: c2 :: rest => String.mk [c1, c2] :: chunkPairs rest

/-- `[data_str[i:i+2] for i in range(0, len(data_str), 2)]`. -/
def chunk2 (s : String) : List String :=
  chunkPairs s.data

/-- One canonical frame row, as built by the non-tabular loaders
(dict keys `Timestamp`, `ID`, `DLC`, `Data`, `Channel`). -/
structure Frame where
  Timestamp : ℚ
  ID : Int
  DLC : Int
  Data : String
  Channel : Int
deriving DecidableEq, Repr

/-- Association-list lookup (Python dict read / `dict.get`). -/
def aget {α β : Type} [DecidableEq α] : List (α × β) → α → Option β
  | [], _ => none
  | (k, v) :: rest, x => if x = k then some v else aget rest x

/-- Association-list write (Python dict assignment). -/
def aset {α β : Type} [DecidableEq α] : List (α × β) → α → β → List (α × β)
  | [], k, v => [(k, v)]
  | (k0, v0) :: rest, k, v =>
    if k = k0 then (k0, v) :: rest else (k0, v0) :: aset rest k v

/-- A loaded bus-database signal (name and optional unit). -/
structure SignalDef where
  name : String
  unit : Option String

/-- A loaded bus-database message: name, signals, and its decode function.
`decode` consumes the normalized hex spelling of the payload bytes and
yields the signal mapping, or `none` when `cantools` would raise. -/
structure MessageDef where
  name : String
  signals : List SignalDef
  decode : String → Option (List (String × CVal))

/-- A loaded bus database: frame id → message definition. -/
structure Database where
  msgs : List (Int × MessageDef)

/-- A pandas DataFrame: column headers plus rows of cells. -/
structure DataFrame where
  headers : List String
  rows : List (List CVal)
deriving DecidableEq, Repr

/-- `pd.DataFrame(columns=['Timestamp','ID','Data','Channel','DLC'])` —
the initial empty recording. -/
def emptyDF : DataFrame :=
  ⟨["Timestamp", "ID", "Data", "Channel", "DLC"], []⟩

/-- The row a canonical frame dict contributes to `pd.DataFrame(data_list)`. -/
def frameRow (f : Frame) : List CVal :=
  [.num f.Timestamp, .num (f.ID : ℚ), .num (f.DLC : ℚ), .str f.Data,
   .num (f.Channel : ℚ)]

/-- `pd.DataFrame(data_list)` over canonical frame dicts. -/
def framesDF (fs : List Frame) : DataFrame :=
  ⟨["Timestamp", "ID", "DLC", "Data", "Channel"], fs.map frameRow⟩

/-- The `CANLoader` object state. -/
structure Loader where
  db : Option Database
  df : DataFrame
  decoded_cache : List (Nat × String)

/-- `CANLoader.__init__`. -/
def initLoader : Loader :=
  ⟨none, emptyDF, []⟩

/-- One input file, with its external-parser oracles: `ext` is the lowercased
extension, `readable` whether `open`/`read` succeeds, `lines` the text lines,
`csvParse` what `pd.read_csv` yields (`none` = raise), `readerFrames` what
`can.LogReader` yields (`none` = raise). -/
structure InputFile where
  ext : String
  readable : Bool
  lines : List String
  csvParse : Option DataFrame
  readerFrames : Option (List Frame)

/-- `CANLoader.load_dbc`: the cantools result is the oracle argument. -/
def load_dbc (st : Loader) (parsedDb : Option Database) : Bool × Loader :=
  match parsedDb with
  | some d => (true, { st with db := some d })
  | none => (false, st)

/-- BusMaster parse state: the zero-reference time and accumulated frames. -/
structure BMState where
  base : Option ℚ
  acc : List Frame
deriving Repr

/-- `_load_busmaster` time parsing: `HH:MM:SS:FFFF` →
`h*3600 + m*60 + s + f/10000` seconds. A token that does not split into four
`:`-separated fields, or whose fields fail `int()`, yields no time (the line
is skipped either way, before the zero reference is touched). -/
def bmTimeSeconds? (tok : String) : Option ℚ :=
  match pySplitCh ':' tok with
  | [a, b, c, d] =>
    match parseInt? a, parseInt? b, parseInt? c, parseInt? d with
    | some h, some m, some s, some f =>
      some ((h : ℚ) * 3600 + (m : ℚ) * 60 + (s : ℚ) + (f : ℚ) / 10000)
    | _, _, _, _ => none
  | _ => none

/-- One iteration of the `_load_busmaster` line loop.  Mirrors the source
order: time parse, zero-reference update, rollover fix, then id / dlc /
channel parses (any of whose failures raises into the per-line `except`,
after the zero reference was already set). -/
def bmProcessLine (st : BMState) (rawLine : String) : BMState :=
  let line := pyTrim rawLine
  if line = "" ∨ pyStartsWith line "***" = true then st
  else
    let parts := pySplit line
    if parts.length < 6 then st
    else
      match bmTimeSeconds? (parts.getD 0 "") with
      | none => st
      | some seconds =>
        let base := st.base.getD seconds
        let rel0 := seconds - base
        let rel := if rel0 < 0 then rel0 + 24 * 3600 else rel0
        match parseHexInt? (parts.getD 3 "") with
        | none => { base := some base, acc := st.acc }
        | some canId =>
          match parseInt? (parts.getD 5 "") with
          | none => { base := some base, acc := st.acc }
          | some dlc =>
            match parseInt? (parts.getD 2 "") with
            | none => { base := some base, acc := st.acc }
            | some ch =>
              let dataHex := String.join (pySlice parts 6 (6 + dlc))
              { base := some base,
                acc := st.acc ++ [⟨rel, canId, dlc, dataHex, ch⟩] }

/-- The whole `_load_busmaster` line loop. -/
def bmParse (lines : List String) : BMState :=
  lines.foldl bmProcessLine ⟨none, []⟩

/-- `CANLoader._load_busmaster`. -/
def load_busmaster (st : Loader) (lines : List String) : Bool × Loader :=
  let r := bmParse lines
  if r.acc.isEmpty then (false, st)
  else (true, { st with df := framesDF r.acc, decoded_cache := [] })

/-- `c.strip().lower()` header normalization. -/
def normHeader (h : String) : String :=
  pyToLower (pyTrim h)

/-- The fixed `col_map` alias table of `_load_csv`. -/
def colMapName (h : String) : String :=
  if h = "time" ∨ h = "timestamp" then "Timestamp"
  else if h = "id" ∨ h = "can_id" ∨ h = "identifier" then "ID"
  else if h = "dlc" ∨ h = "len" ∨ h = "length" then "DLC"
  else if h = "data" ∨ h = "payload" then "Data"
  else h

/-- `self.df.columns = [c.strip().lower() for c in self.df.columns]`. -/
def normCols (df : DataFrame) : DataFrame :=
  ⟨df.headers.map normHeader, df.rows⟩

/-- `self.df = self.df.rename(columns=col_map)`. -/
def renameCols (df : DataFrame) : DataFrame :=
  ⟨df.headers.map colMapName, df.rows⟩

/-- Position of a column header (first occurrence). -/
def colIndex (df : DataFrame) (name : String) : Option Nat :=
  df.headers.indexOf? name

/-- The cells of column `i`. -/
def getCol (df : DataFrame) (i : Nat) : List CVal :=
  df.rows.map (fun r => r.getD i (.str ""))

/-- Whether a cell is a string (pandas object-dtype content). -/
def isStrCV : CVal → Bool
  | .str _ => true
  | .num _ => false

/-- pandas: a column has `object` dtype iff it holds non-numeric content. -/
def dtypeObject (col : List CVal) : Bool :=
  col.any isStrCV

/-- The `_load_csv` id-conversion lambda:
`int(x, 16) if 'x' in x else int(x)` applied to `str(cell)`. -/
def convertIdCell (v : CVal) : Option Int :=
  let x := pyStr v
  if pyHasChar x 'x' then parseHexInt? x else parseInt? x

/-- `.apply` of the id conversion over the whole column; `none` = a
`ValueError` raised mid-apply (before any assignment back to the frame). -/
def convertIdCol (col : List CVal) : Option (List Int) :=
  col.mapM convertIdCell

/-- Replace column `i` of every row. -/
def setCol (df : DataFrame) (i : Nat) (vals : List CVal) : DataFrame :=
  ⟨df.headers, (df.rows.zip vals).map (fun p => p.1.set i p.2)⟩

/-- Numeric sort key of a cell (used only on all-numeric columns). -/
def cvalQ : CVal → ℚ
  | .num q => q
  | .str _ => 0

/-- String sort key of a cell (used only on all-string columns). -/
def cvalS : CVal → String
  | .str s => s
  | .num _ => ""

/-- Row order by numeric key of column `i`. -/
def rowLeQ (i : Nat) (a b : List CVal) : Prop :=
  cvalQ (a.getD i (.str "")) ≤ cvalQ (b.getD i (.str ""))

instance (i : Nat) : DecidableRel (rowLeQ i) := fun a b =>
  inferInstanceAs (Decidable (_ ≤ _))

instance (i : Nat) : IsTotal (List CVal) (rowLeQ i) :=
  ⟨fun a b => le_total _ _⟩

instance (i : Nat) : IsTrans (List CVal) (rowLeQ i) :=
  ⟨fun _ _ _ h1 h2 => le_trans h1 h2⟩

/-- Row order by string key of column `i`. -/
def rowLeS (i : Nat) (a b : List CVal) : Prop :=
  cvalS (a.getD i (.str "")) ≤ cvalS (b.getD i (.str ""))

instance (i : Nat) : DecidableRel (rowLeS i) := fun a b =>
  inferInstanceAs (Decidable (_ ≤ _))

instance (i : Nat) : IsTotal (List CVal) (rowLeS i) :=
  ⟨fun a b => le_total _ _⟩

instance (i : Nat) : IsTrans (List CVal) (rowLeS i) :=
  ⟨fun _ _ _ h1 h2 => le_trans h1 h2⟩

/-- `self.df.sort_values('Timestamp')`: `none` models a raise — `KeyError`
when the column is missing, `TypeError` when pandas would compare numeric
against string cells.  All-numeric columns sort by value, all-string
columns lexicographically. -/
def sortStep (tbl : DataFrame) : Option DataFrame :=
  match colIndex tbl "Timestamp" with
  | none => none
  | some i =>
    let col := getCol tbl i
    if col.all (fun v => !(isStrCV v)) then
      some ⟨tbl.headers, List.insertionSort (rowLeQ i) tbl.rows⟩
    else if col.all isStrCV then
      some ⟨tbl.headers, List.insertionSort (rowLeS i) tbl.rows⟩
    else none

/-- `CANLoader._load_csv`.  Note the source assigns `self.df` eagerly:
after a successful `pd.read_csv`, every later raise (missing `ID` or
`Timestamp` column, unparseable id cell, unsortable column) escapes to
`load_log`'s handler with `self.df` already replaced by the
partially-normalized table. -/
def load_csv (st : Loader) (file : InputFile) : Bool × Loader :=
  match (if file.readable then file.csvParse else none) with
  | none => (false, st)
  | some raw =>
    let tbl := renameCols (normCols raw)
    match colIndex tbl "ID" with
    | none => (false, { st with df := tbl })
    | some i =>
      let idCol := getCol tbl i
      if dtypeObject idCol then
        match convertIdCol idCol with
        | none => (false, { st with df := tbl })
        | some ids =>
          let tbl2 := setCol tbl i (ids.map (fun n => CVal.num (n : ℚ)))
          match sortStep tbl2 with
          | none => (false, { st with df := tbl2 })
          | some stbl => (true, { st with df := stbl, decoded_cache := [] })
      else
        match sortStep tbl with
        | none => (false, { st with df := tbl })
        | some stbl => (true, { st with df := stbl, decoded_cache := [] })

/-- `CANLoader._load_can_log`: the external `can.LogReader` result is the
`readerFrames` oracle; timestamps are shifted so the first frame is at 0. -/
def load_can_log (st : Loader) (file : InputFile) : Bool × Loader :=
  match file.readerFrames with
  | none => (false, st)
  | some fs =>
    if fs.isEmpty then (false, st)
    else
      let base := (fs.headD ⟨0, 0, 0, "", 0⟩).Timestamp
      let adj := fs.map (fun f => { f with Timestamp := f.Timestamp - base })
      (true, { st with df := framesDF adj, decoded_cache := [] })

/-- `CANLoader.load_log`: extension dispatch with the BusMaster header peek;
the surrounding `try`/`except` turns any escaped raise into `False`. -/
def load_log (st : Loader) (file : InputFile) : Bool × Loader :=
  if file.ext = ".log" ∧ file.readable = false then (false, st)
  else if file.ext = ".log" ∧ pyStartsWith (file.lines.headD "") "***BUSMASTER" = true then
    load_busmaster st file.lines
  else if file.ext = ".csv" then load_csv st file
  else if file.ext = ".asc" ∨ file.ext = ".log" ∨ file.ext = ".blf" then
    load_can_log st file
  else (false, st)

/-- Result of `decode_message`: a signal mapping or a sentinel string. -/
inductive Decoded where
  | sigs (l : List (String × CVal))
  | msg (s : String)

/-- `db.get_message_by_frame_id` keyed by a cell value: integer-valued
numerics hash-match integer keys; anything else raises `KeyError`
(modelled as `none`). -/
def getMessageById (d : Database) (cid : CVal) : Option MessageDef :=
  match cid with
  | .num q => if q.den = 1 then aget d.msgs q.num else none
  | .str _ => none

/-- `CANLoader.decode_message`. -/
def decode_message (db : Option Database) (cid : CVal) (dataBytes : String) :
    Decoded :=
  match db with
  | none => .msg "No DBC Loaded"
  | some d =>
    match getMessageById d cid with
    | none => .msg "Unknown ID"
    | some m =>
      match m.decode dataBytes with
      | some l => .sigs l
      | none => .msg "Decode Error"

/-- Whether a character is a hex digit. -/
def isHexChar (c : Char) : Bool :=
  (hexDigit? c).isSome

/-- `bytes.fromhex` on the (padded) data string; the byte string is kept in
its normalized hex spelling. -/
def hexDecode? (s : String) : Option String :=
  if s.data.all isHexChar && s.length % 2 = 0 then some s else none

/-- The `"Sig1: 12.5, Sig2: 100"` formatting of `get_decoded_string`. -/
def formatDecoded : Decoded → String
  | .sigs l => String.intercalate ", " (l.map (fun p => p.1 ++ ": " ++ pyStr p.2))
  | .msg s => s

/-- `CANLoader.get_decoded_string`; `none` = an uncaught raise (bad index or
missing canonical column).  The `"Invalid Data"` early return is not
cached, matching the source. -/
def get_decoded_string (st : Loader) (index : Nat) : Option (String × Loader) :=
  match aget st.decoded_cache index with
  | some s => some (s, st)
  | none =>
    match st.df.rows.get? index with
    | none => none
    | some row =>
      match colIndex st.df "ID", colIndex st.df "Data" with
      | some iId, some iData =>
        let canId := row.getD iId (.str "")
        let dataStr := pyTrim (pyStr (row.getD iData (.str "")))
        match hexDecode? (padEven dataStr) with
        | none => some ("Invalid Data", st)
        | some bytesRep =>
          let res := formatDecoded (decode_message st.db canId bytesRep)
          some (res, { st with decoded_cache := aset st.decoded_cache index res })
      | _, _ => none

/-!
## Trace State Machine (src/ui_main.py)

The trace engine of `MainWindow` is embedded over the canonical frame
sequence (`List Frame`) that the loader's recording carries; widget-only
effects (tree rendering, labels, plot lines) are outside the model, but
the raise behavior of `update_ui_common`'s data access is kept.
-/

/-- The `MainWindow` trace-window state dictionaries. -/
structure TraceCtx where
  message_items : List Int
  signal_items : List (Int × String)
  last_data : List (Int × String)
  last_signals : List ((Int × String) × CVal)
  byte_states : List (Int × List Nat)
  signal_states : List ((Int × String) × Nat)
deriving DecidableEq, Repr

/-- The freshly-reset trace state (`refresh_table` / `slider_moved` reset). -/
def emptyCtx : TraceCtx :=
  ⟨[], [], [], [], [], []⟩

/-- One byte lane transition of `process_frame`:
changed → 1 (Red/Changed); unchanged: 1 → 2 (Yellow/Settled), 2 stays 2,
0 (Gray/Fresh) stays 0. -/
def laneStep (old : Nat) (changed : Bool) : Nat :=
  if changed then 1 else if old = 1 then 2 else old

/-- The byte-color loop of `process_frame`: lane `i` counts as changed only
when `i < len(prev_bytes)` and the byte strings differ. -/
def computeStates : List String → List String → List Nat → List Nat
  | [], _, _ => []
  | b :: cbs, pb, bs =>
    laneStep (bs.headD 0) (match pb with | p :: _ => b != p | [] => false) ::
      computeStates cbs pb.tail bs.tail

/-- One signal update of `process_frame` (the loop over `decoded.items()`):
only keys present in `signal_items` are touched; a differing previous value
sets Changed, otherwise Changed promotes to Settled and Settled/Fresh stay. -/
def sigStep (si : List (Int × String)) (canId : Int)
    (acc : List ((Int × String) × CVal) × List ((Int × String) × Nat))
    (item : String × CVal) :
    List ((Int × String) × CVal) × List ((Int × String) × Nat) :=
  let key := (canId, item.1)
  if key ∈ si then
    let oldVal := aget acc.1 key
    let sState := (aget acc.2 key).getD 0
    let newState :=
      match oldVal with
      | some w => if item.2 ≠ w then 1 else if sState = 1 then 2 else sState
      | none => if sState = 1 then 2 else sState
    (aset acc.1 key item.2, aset acc.2 key newState)
  else acc

/-- `MainWindow.process_frame` on the frame at some index (the row fetch is
done by the caller).  Mirrors: byte-state init/resize, message/signal item
creation, the byte diff loop, `last_data` update, and the decoded-signal
loop (whose whole section is skipped when `bytes.fromhex`, the id lookup or
the decode raises). -/
def processFrame (db : Option Database) (ctx : TraceCtx) (f : Frame) :
    TraceCtx :=
  let dataStr := padEven f.Data
  let currentBytes := chunk2 dataStr
  let bs0 :=
    match aget ctx.byte_states f.ID with
    | none => List.replicate currentBytes.length 0
    | some v =>
      if v.length ≠ currentBytes.length then
        List.replicate currentBytes.length 0
      else v
  let mdef := db.bind (fun d => aget d.msgs f.ID)
  let mi_si :=
    if f.ID ∈ ctx.message_items then (ctx.message_items, ctx.signal_items)
    else
      (ctx.message_items ++ [f.ID],
       match mdef with
       | some m => ctx.signal_items ++ m.signals.map (fun sg => (f.ID, sg.name))
       | none => ctx.signal_items)
  let prevDataStr := padEven ((aget ctx.last_data f.ID).getD "")
  let prevBytes := chunk2 prevDataStr
  let states := computeStates currentBytes prevBytes bs0
  let lastData2 := aset ctx.last_data f.ID dataStr
  let byteStates2 := aset ctx.byte_states f.ID states
  let ls_ss :=
    match db with
    | none => (ctx.last_signals, ctx.signal_states)
    | some d =>
      match hexDecode? dataStr with
      | none => (ctx.last_signals, ctx.signal_states)
      | some bytesRep =>
        match aget d.msgs f.ID with
        | none => (ctx.last_signals, ctx.signal_states)
        | some m =>
          match m.decode bytesRep with
          | none => (ctx.last_signals, ctx.signal_states)
          | some decoded =>
            decoded.foldl (sigStep mi_si.2 f.ID)
              (ctx.last_signals, ctx.signal_states)
  ⟨mi_si.1, mi_si.2, lastData2, ls_ss.1, byteStates2, ls_ss.2⟩

/-- The modelled slice of `MainWindow` navigation state. -/
structure UiState where
  ctx : TraceCtx
  current_index : Nat
  is_playing : Bool
deriving DecidableEq, Repr

/-- The initial window state. -/
def initUi : UiState :=
  ⟨emptyCtx, 0, false⟩

/-- An uncaught exception escaping a navigation operation. -/
inductive UiErr where
  | indexError
deriving DecidableEq, Repr

/-- Placeholder frame for guarded indexed access (never read when the
source's bounds guard holds). -/
def dfltFrame : Frame :=
  ⟨0, 0, 0, "", 0⟩

/-- `MainWindow.update_ui_common`: its only modelled effect is the raise of
`self.loader.df.iloc[self.current_index]` when the index is out of range
(in particular on an empty recording). -/
def update_ui_common (rec : List Frame) (st : UiState) : Option UiErr :=
  if st.current_index < rec.length then none else some .indexError

/-- `MainWindow.step_forward`. -/
def step_forward (db : Option Database) (rec : List Frame) (st : UiState) :
    UiState :=
  if rec.isEmpty then st
  else if st.current_index < rec.length - 1 then
    let i := st.current_index + 1
    { st with current_index := i,
              ctx := processFrame db st.ctx (rec.getD i dfltFrame) }
  else st

/-- `subset.groupby('ID').tail(1)`: the last occurrence of each id, in the
order those last occurrences appear. -/
def latestPerId : List Frame → List Frame
  | [] => []
  | f :: rest =>
    if rest.any (fun g => g.ID == f.ID) then latestPerId rest
    else f :: latestPerId rest

/-- Order of representative frames used by `sort_values('Timestamp')`. -/
def tsLe (a b : Frame) : Prop :=
  a.Timestamp ≤ b.Timestamp

instance : DecidableRel tsLe := fun a b =>
  inferInstanceAs (Decidable (a.Timestamp ≤ b.Timestamp))

instance : IsTotal Frame tsLe :=
  ⟨fun a b => le_total a.Timestamp b.Timestamp⟩

instance : IsTrans Frame tsLe :=
  ⟨fun _ _ _ h1 h2 => le_trans h1 h2⟩

/-- The post-`process_frame` byte-state reset in the `slider_moved` loop
(`self.byte_states[cid] = [0] * len(self.byte_states[cid])`). -/
def resetBytes (ctx : TraceCtx) (cid : Int) : TraceCtx :=
  match aget ctx.byte_states cid with
  | some v =>
    { ctx with byte_states := aset ctx.byte_states cid (List.replicate v.length 0) }
  | none => ctx

/-- One iteration of the `slider_moved` representative-frame loop. -/
def seekStep (db : Option Database) (c : TraceCtx) (f : Frame) : TraceCtx :=
  resetBytes (processFrame db c f) f.ID

/-- The representative frames a seek to `val` processes: latest frame per id
among indices `[0, val]`, ordered by their own timestamps. -/
def seekFrames (rec : List Frame) (val : Nat) : List Frame :=
  List.insertionSort tsLe (latestPerId (rec.take (val + 1)))

/-- The arbitrary-jump path of `MainWindow.slider_moved` (the spec's
`seek`): reset every trace dictionary, process the latest frame of each id
up to `val` in timestamp order, then run `update_ui_common` (which raises
when `val` is not a valid row index, e.g. on an empty recording). -/
def seek (db : Option Database) (rec : List Frame) (st : UiState) (val : Nat) :
    UiState × Option UiErr :=
  let st1 : UiState := { st with current_index := val, ctx := emptyCtx }
  let ctx2 := (seekFrames rec val).foldl (seekStep db) st1.ctx
  let st2 := { st1 with ctx := ctx2 }
  (st2, update_ui_common rec st2)

/-- `MainWindow.slider_moved`: a move to `current_index + 1` is routed to
`step_forward`; any other target takes the full seek path. -/
def slider_moved (db : Option Database) (rec : List Frame) (st : UiState)
    (val : Nat) : UiState × Option UiErr :=
  if val = st.current_index + 1 then (step_forward db rec st, none)
  else seek db rec st val

/-- `MainWindow.step_back`: delegates to the slider (hence to seek). -/
def step_back (db : Option Database) (rec : List Frame) (st : UiState) :
    UiState × Option UiErr :=
  if rec.isEmpty then (st, none)
  else if st.current_index > 0 then slider_moved db rec st (st.current_index - 1)
  else (st, none)

/-- `MainWindow.update_playback` (one playback timer tick). -/
def update_playback (db : Option Database) (rec : List Frame) (st : UiState) :
    UiState :=
  if rec.isEmpty then st
  else if st.current_index < rec.length - 1 then
    let i := st.current_index + 1
    { st with current_index := i,
              ctx := processFrame db st.ctx (rec.getD i dfltFrame) }
  else { st with is_playing := !st.is_playing }

/-- Database well-formedness: decode results are signal dictionaries, so
their names are pairwise distinct. -/
def DBWF : Option Database → Prop
  | none => True
  | some d =>
    ∀ p ∈ d.msgs, ∀ pay out, p.2.decode pay = some out →
      (out.map Prod.fst).Nodup

/-- Every stored byte-lane state and signal state is Fresh (0). -/
def allFresh (ctx : TraceCtx) : Prop :=
  (∀ p ∈ ctx.byte_states, ∀ x ∈ p.2, x = 0) ∧
  (∀ q ∈ ctx.signal_states, q.2 = 0)

instance (ctx : TraceCtx) : Decidable (allFresh ctx) :=
  inferInstanceAs (Decidable (And _ _))

/-! ## Lemmas about the BusMaster parser -/

/-- A line whose trimmed form splits into fewer than 6 tokens is skipped:
the parse state (zero reference and accumulated frames) is untouched. -/
theorem bmProcessLine_skip_short (st : BMState) (rawLine : String)
    (h : (pySplit (pyTrim rawLine)).length < 6) :
    bmProcessLine st rawLine = st := by
  simp [bmProcessLine, h, ite_self]

/-- A line whose time token does not parse is skipped entirely. -/
theorem bmProcessLine_time_fail (st : BMState) (rawLine : String)
    (ht : bmTimeSeconds? ((pySplit (pyTrim rawLine)).getD 0 "") = none) :
    bmProcessLine st rawLine = st := by
  simp only [List.getD_eq_getElem?_getD] at ht
  simp only [bmProcessLine, List.getD_eq_getElem?_getD]
  split
  · rfl
  · split
    · rfl
    · simp [ht]

/-- Characterization of an accepted BusMaster line. -/
theorem bmProcessLine_accept (st : BMState) (rawLine : String)
    (h1 : pyTrim rawLine ≠ "")
    (h2 : pyStartsWith (pyTrim rawLine) "***" = false)
    (h3 : ¬ (pySplit (pyTrim rawLine)).length < 6)
    {sec : ℚ} (ht : bmTimeSeconds? ((pySplit (pyTrim rawLine)).getD 0 "") = some sec)
    {cid : Int} (hid : parseHexInt? ((pySplit (pyTrim rawLine)).getD 3 "") = some cid)
    {dlc : Int} (hdlc : parseInt? ((pySplit (pyTrim rawLine)).getD 5 "") = some dlc)
    {ch : Int} (hch : parseInt? ((pySplit (pyTrim rawLine)).getD 2 "") = some ch) :
    bmProcessLine st rawLine =
      { base := some (st.base.getD sec),
        acc := st.acc ++
          [⟨(if sec - st.base.getD sec < 0 then sec - st.base.getD sec + 24 * 3600
             else sec - st.base.getD sec), cid, dlc,
            String.join (pySlice (pySplit (pyTrim rawLine)) 6 (6 + dlc)),
            ch⟩] } := by
  simp only [bmProcessLine, h1, h2, h3, ht, hid, hdlc, hch, if_neg, if_false,
    Bool.false_eq_true, or_self, ite_false, false_or, or_false]

/-- With a nonnegative declared length, the payload slice `parts[6:6+dlc]`
is just the first `dlc` tokens after position 6. -/
theorem pySlice_six {α : Type} (l : List α) (d : Int) (h : 0 ≤ d) :
    pySlice l 6 (6 + d) = (l.drop 6).take d.toNat := by
  rw [pySlice]
  have hnn : ¬ ((6 : Int) + d < 0) := by omega
  rw [if_neg hnn]
  have h2 : ((6 : Int) + d).toNat = 6 + d.toNat := by omega
  rw [h2]
  exact (List.take_drop 6 d.toNat l).symm

/-- A line with a parseable time but a failing id / dlc / channel token is
skipped (no frame appended) though the zero reference is already set. -/
theorem bmProcessLine_field_fail (st : BMState) (rawLine : String)
    (h1 : pyTrim rawLine ≠ "")
    (h2 : pyStartsWith (pyTrim rawLine) "***" = false)
    (h3 : ¬ (pySplit (pyTrim rawLine)).length < 6)
    {sec : ℚ} (ht : bmTimeSeconds? ((pySplit (pyTrim rawLine)).getD 0 "") = some sec)
    (hfail : parseHexInt? ((pySplit (pyTrim rawLine)).getD 3 "") = none ∨
             parseInt? ((pySplit (pyTrim rawLine)).getD 5 "") = none ∨
             parseInt? ((pySplit (pyTrim rawLine)).getD 2 "") = none) :
    bmProcessLine st rawLine = { base := some (st.base.getD sec), acc := st.acc } := by
  simp only [List.getD_eq_getElem?_getD] at hfail
  simp only [bmProcessLine, h1, h2, h3, ht, if_neg, if_false, Bool.false_eq_true,
    or_self, ite_false, false_or, or_false]
  rcases hfail with h | h | h
  · simp [h]
  · cases hp : parseHexInt? ((pySplit (pyTrim rawLine))[3]?.getD "") <;> simp [hp, h]
  · cases hp : parseHexInt? ((pySplit (pyTrim rawLine))[3]?.getD "") <;>
      cases hq : parseInt? ((pySplit (pyTrim rawLine))[5]?.getD "") <;> simp [hp, hq, h]

/-! ## Claims about the BusMaster parser -/

/-- C6 (amended): In the vendor text (BusMaster) parser, a valid time token
`H:M:S:F` is converted to absolute seconds as `H*3600 + M*60 + S + F/10000`;
the zero reference is fixed by the first line (with at least 6 tokens)
whose TIME token parses — even when that line is then skipped for a failing
id/DLC/channel token and contributes no frame; every accepted frame's
timestamp is emitted relative to that reference, with `24*3600` added when
the relative time is negative.  In particular a first line at
`17:48:32:9099` yields timestamp `0.0` and a second at `17:48:33:4099`
yields `0.5`. -/
theorem claim_C6_vendor_time_conversion :
    (∀ (tok a b c d : String) (h m s f : Int),
      pySplitCh ':' tok = [a, b, c, d] →
      parseInt? a = some h → parseInt? b = some m →
      parseInt? c = some s → parseInt? d = some f →
      bmTimeSeconds? tok =
        some ((h : ℚ) * 3600 + (m : ℚ) * 60 + (s : ℚ) + (f : ℚ) / 10000)) ∧
    (∀ (st : BMState) (rawLine : String) (sec : ℚ),
      st.base = none →
      pyTrim rawLine ≠ "" →
      pyStartsWith (pyTrim rawLine) "***" = false →
      ¬ (pySplit (pyTrim rawLine)).length < 6 →
      bmTimeSeconds? ((pySplit (pyTrim rawLine)).getD 0 "") = some sec →
      (bmProcessLine st rawLine).base = some sec) ∧
    (∀ (st : BMState) (rawLine : String) (sec : ℚ),
      st.base = none →
      pyTrim rawLine ≠ "" →
      pyStartsWith (pyTrim rawLine) "***" = false →
      ¬ (pySplit (pyTrim rawLine)).length < 6 →
      bmTimeSeconds? ((pySplit (pyTrim rawLine)).getD 0 "") = some sec →
      (parseHexInt? ((pySplit (pyTrim rawLine)).getD 3 "") = none ∨
       parseInt? ((pySplit (pyTrim rawLine)).getD 5 "") = none ∨
       parseInt? ((pySplit (pyTrim rawLine)).getD 2 "") = none) →
      (bmProcessLine st rawLine).acc = st.acc ∧
      (bmProcessLine st rawLine).base = some sec) ∧
    (∀ (st : BMState) (rawLine : String) (b sec : ℚ) (cid dlc ch : Int),
      st.base = some b →
      pyTrim rawLine ≠ "" →
      pyStartsWith (pyTrim rawLine) "***" = false →
      ¬ (pySplit (pyTrim rawLine)).length < 6 →
      bmTimeSeconds? ((pySplit (pyTrim rawLine)).getD 0 "") = some sec →
      parseHexInt? ((pySplit (pyTrim rawLine)).getD 3 "") = some cid →
      parseInt? ((pySplit (pyTrim rawLine)).getD 5 "") = some dlc →
      parseInt? ((pySplit (pyTrim rawLine)).getD 2 "") = some ch →
      (bmProcessLine st rawLine).acc.map Frame.Timestamp =
        st.acc.map Frame.Timestamp ++
          [if sec - b < 0 then sec - b + 24 * 3600 else sec - b]) ∧
    ((bmParse ["17:48:32:9099 Rx 1 0x004 s 8 04 08 01 02 03 04 05 06",
               "17:48:33:4099 Rx 1 0x004 s 8 04 08 01 02 03 04 05 06"]).acc.map
        Frame.Timestamp = [0, 1/2] ∧
     (load_busmaster initLoader
        ["17:48:32:9099 Rx 1 0x004 s 8 04 08 01 02 03 04 05 06",
         "17:48:33:4099 Rx 1 0x004 s 8 04 08 01 02 03 04 05 06"]).1 = true) := by
  refine ⟨?_, ?_, ?_, ?_, ?_, ?_⟩
  · intro tok a b c d h m s f hsplit ha hb hc hd
    simp [bmTimeSeconds?, hsplit, ha, hb, hc, hd]
  · intro st rawLine sec hbase h1 h2 h3 ht
    cases hp : parseHexInt? ((pySplit (pyTrim rawLine)).getD 3 "") with
    | none =>
      rw [bmProcessLine_field_fail st rawLine h1 h2 h3 ht (Or.inl hp)]
      simp [hbase]
    | some cid =>
      cases hq : parseInt? ((pySplit (pyTrim rawLine)).getD 5 "") with
      | none =>
        rw [bmProcessLine_field_fail st rawLine h1 h2 h3 ht (Or.inr (Or.inl hq))]
        simp [hbase]
      | some dlc =>
        cases hr : parseInt? ((pySplit (pyTrim rawLine)).getD 2 "") with
        | none =>
          rw [bmProcessLine_field_fail st rawLine h1 h2 h3 ht
            (Or.inr (Or.inr hr))]
          simp [hbase]
        | some ch =>
          rw [bmProcessLine_accept st rawLine h1 h2 h3 ht hp hq hr]
          simp [hbase]
  · intro st rawLine sec hbase h1 h2 h3 ht hfail
    rw [bmProcessLine_field_fail st rawLine h1 h2 h3 ht hfail]
    simp [hbase]
  · intro st rawLine b sec cid dlc ch hbase h1 h2 h3 ht hid hdlc hch
    rw [bmProcessLine_accept st rawLine h1 h2 h3 ht hid hdlc hch]
    simp [hbase]
  · with_unfolding_all decide
  · with_unfolding_all decide

/-- Witness for C6: the conversion formula evaluated on the spec's token. -/
theorem claim_C6_witness :
    bmTimeSeconds? "17:48:32:9099" =
      some (((17 : Int) : ℚ) * 3600 + ((48 : Int) : ℚ) * 60 + ((32 : Int) : ℚ) +
        ((9099 : Int) : ℚ) / 10000) :=
  claim_C6_vendor_time_conversion.1 "17:48:32:9099" "17" "48" "32" "9099"
    17 48 32 9099 (by decide) (by decide) (by decide) (by decide) (by decide)

/-- C6 counterexample: a first line whose time parses but whose id fails
(`ZZZ`) is skipped — it is not a valid line and contributes no frame — yet
it fixes the zero reference at 5 s, so the first VALID line (absolute time
0 s) is emitted at 86395 s (after the negative-rollover fix), not at 0.0 as
the original claim requires. -/
theorem claim_C6_counterexample :
    (bmProcessLine ⟨none, []⟩ "00:00:05:0000 Rx 1 ZZZ s 1 AA").acc = [] ∧
    (bmProcessLine ⟨none, []⟩ "00:00:05:0000 Rx 1 ZZZ s 1 AA").base = some 5 ∧
    (bmParse ["00:00:05:0000 Rx 1 ZZZ s 1 AA",
              "00:00:00:0000 Rx 1 0x10 s 1 AA"]).acc.map Frame.Timestamp =
      [86395] := by
  have hstep1 : bmProcessLine ⟨none, []⟩ "00:00:05:0000 Rx 1 ZZZ s 1 AA" =
      { base := some 5, acc := [] } := by
    rw [@bmProcessLine_field_fail ⟨none, []⟩ "00:00:05:0000 Rx 1 ZZZ s 1 AA"
      (by decide) (by decide) (by decide) 5 (by with_unfolding_all decide)
      (Or.inl (by decide))]
    rfl
  have hstep2 : bmProcessLine { base := some 5, acc := [] }
      "00:00:00:0000 Rx 1 0x10 s 1 AA" =
      { base := some 5,
        acc := [⟨(if (0 : ℚ) - 5 < 0 then (0 : ℚ) - 5 + 24 * 3600
                  else (0 : ℚ) - 5), 16, 1,
                 String.join (pySlice
                   (pySplit (pyTrim "00:00:00:0000 Rx 1 0x10 s 1 AA")) 6
                   (6 + 1)), 1⟩] } := by
    rw [@bmProcessLine_accept { base := some 5, acc := [] }
      "00:00:00:0000 Rx 1 0x10 s 1 AA" (by decide) (by decide) (by decide)
      0 (by with_unfolding_all decide) 16 (by decide) 1 (by decide)
      1 (by decide)]
    rfl
  refine ⟨?_, ?_, ?_⟩
  · decide
  · with_unfolding_all decide
  · show (bmProcessLine (bmProcessLine ⟨none, []⟩
        "00:00:05:0000 Rx 1 ZZZ s 1 AA")
        "00:00:00:0000 Rx 1 0x10 s 1 AA").acc.map Frame.Timestamp = [86395]
    rw [hstep1, hstep2]
    norm_num

/-- C9: In the vendor text parser, a line with fewer than 6 whitespace
tokens, or a line whose parsed tokens (time fields, id, dlc, channel) fail
numeric parsing, is skipped individually while parsing continues; the whole
file fails exactly when zero frames result.  In particular one well-formed
line plus one 3-token line yields a Recording of length 1. -/
theorem claim_C9_malformed_line_tolerance :
    (∀ (st : BMState) (rawLine : String),
      (pySplit (pyTrim rawLine)).length < 6 → bmProcessLine st rawLine = st) ∧
    (∀ (st : BMState) (rawLine : String),
      bmTimeSeconds? ((pySplit (pyTrim rawLine)).getD 0 "") = none →
      bmProcessLine st rawLine = st) ∧
    (∀ (st : BMState) (rawLine : String) (sec : ℚ),
      pyTrim rawLine ≠ "" →
      pyStartsWith (pyTrim rawLine) "***" = false →
      ¬ (pySplit (pyTrim rawLine)).length < 6 →
      bmTimeSeconds? ((pySplit (pyTrim rawLine)).getD 0 "") = some sec →
      (parseHexInt? ((pySplit (pyTrim rawLine)).getD 3 "") = none ∨
       parseInt? ((pySplit (pyTrim rawLine)).getD 5 "") = none ∨
       parseInt? ((pySplit (pyTrim rawLine)).getD 2 "") = none) →
      (bmProcessLine st rawLine).acc = st.acc) ∧
    (∀ (st : Loader) (lines : List String),
      (load_busmaster st lines).1 = false ↔ (bmParse lines).acc = []) ∧
    ((load_busmaster initLoader
        ["17:48:32:9099 Rx 1 0x004 s 8 04 08 01 02 03 04 05 06",
         "17:48:32:9099 Rx 1"]).1 = true ∧
     (load_busmaster initLoader
        ["17:48:32:9099 Rx 1 0x004 s 8 04 08 01 02 03 04 05 06",
         "17:48:32:9099 Rx 1"]).2.df.rows.length = 1) := by
  refine ⟨?_, ?_, ?_, ?_, ?_, ?_⟩
  · intro st rawLine h
    exact bmProcessLine_skip_short st rawLine h
  · intro st rawLine ht
    exact bmProcessLine_time_fail st rawLine ht
  · intro st rawLine sec h1 h2 h3 ht hfail
    rw [bmProcessLine_field_fail st rawLine h1 h2 h3 ht hfail]
  · intro st lines
    by_cases hc : (bmParse lines).acc = [] <;>
      simp [load_busmaster, hc, List.isEmpty_iff]
  · with_unfolding_all decide
  · with_unfolding_all decide

/-- Witness for C9: the 3-token line is skipped from the initial state. -/
theorem claim_C9_witness :
    bmProcessLine ⟨none, []⟩ "17:48:32:9099 Rx 1" = ⟨none, []⟩ :=
  claim_C9_malformed_line_tolerance.1 ⟨none, []⟩ "17:48:32:9099 Rx 1" (by decide)

/-- C10 (amended): an accepted vendor-text frame with a NONNEGATIVE
declared DLC has as payload the concatenation of at most DLC data tokens
after the length field: extra tokens are ignored, a line with fewer data
tokens than its declared DLC is still accepted with a shorter payload (the
declared DLC is stored unchanged), and data tokens are never validated as
hex.  (A negative declared DLC is also accepted, but the Python slice
`parts[6:6+dlc]` then wraps — see the counterexample.) -/
theorem claim_C10_payload_from_dlc_tokens :
    (∀ (st : BMState) (rawLine : String) (sec : ℚ) (cid dlc ch : Int),
      pyTrim rawLine ≠ "" →
      pyStartsWith (pyTrim rawLine) "***" = false →
      ¬ (pySplit (pyTrim rawLine)).length < 6 →
      bmTimeSeconds? ((pySplit (pyTrim rawLine)).getD 0 "") = some sec →
      parseHexInt? ((pySplit (pyTrim rawLine)).getD 3 "") = some cid →
      parseInt? ((pySplit (pyTrim rawLine)).getD 5 "") = some dlc →
      parseInt? ((pySplit (pyTrim rawLine)).getD 2 "") = some ch →
      0 ≤ dlc →
      (bmProcessLine st rawLine).acc.map (fun fr => (fr.Data, fr.DLC)) =
        st.acc.map (fun fr => (fr.Data, fr.DLC)) ++
          [(String.join (((pySplit (pyTrim rawLine)).drop 6).take dlc.toNat),
            dlc)]) ∧
    ((bmParse ["00:00:00:0000 Rx 1 0x10 s 8 AA BB"]).acc.map
        (fun fr => (fr.Data, fr.DLC)) = [("AABB", 8)]) ∧
    ((bmParse ["00:00:00:0000 Rx 1 0x10 s 1 AA BB CC"]).acc.map Frame.Data
        = ["AA"]) ∧
    ((bmParse ["00:00:00:0000 Rx 1 0x10 s 2 ZZ QQ"]).acc.map Frame.Data
        = ["ZZQQ"]) := by
  refine ⟨?_, ?_, ?_, ?_⟩
  · intro st rawLine sec cid dlc ch h1 h2 h3 ht hid hdlc hch hd
    rw [bmProcessLine_accept st rawLine h1 h2 h3 ht hid hdlc hch,
      pySlice_six (pySplit (pyTrim rawLine)) dlc hd]
    simp
  · with_unfolding_all decide
  · with_unfolding_all decide
  · with_unfolding_all decide

/-- Witness for C10: the short-payload line, processed from the initial
state, is accepted with payload `AABB` and declared DLC 8. -/
theorem claim_C10_witness :
    (bmProcessLine ⟨none, []⟩ "00:00:00:0000 Rx 1 0x10 s 8 AA BB").acc.map
      (fun fr => (fr.Data, fr.DLC)) = [("AABB", (8 : Int))] := by
  rw [claim_C10_payload_from_dlc_tokens.1 ⟨none, []⟩
    "00:00:00:0000 Rx 1 0x10 s 8 AA BB" 0 16 8 1
    (by decide) (by decide) (by decide) (by with_unfolding_all decide)
    (by decide) (by decide) (by decide) (by decide)]
  decide

/-- C10 counterexample: a line declaring DLC `-7` is accepted, and Python's
wrapped slice `parts[6:6+dlc]` (end index `-1`, counted from the end of the
token list) gives it a seven-token payload — more than its declared DLC, so
the payload is not built from at most DLC data tokens. -/
theorem claim_C10_counterexample :
    (bmParse ["00:00:00:0000 Rx 1 0x10 s -7 AA BB CC DD EE FF GG HH"]).acc.map
        (fun fr => (fr.Data, fr.DLC)) = [("AABBCCDDEEFFGG", -7)] ∧
    ¬ ((chunk2 "AABBCCDDEEFFGG").length : Int) ≤ -7 := by
  constructor
  · with_unfolding_all decide
  · decide

/-! ## Association-list lemmas -/

/-- Reading back the written key. -/
theorem aget_aset_self {α β : Type} [DecidableEq α] (l : List (α × β)) (k : α)
    (v : β) : aget (aset l k v) k = some v := by
  induction l with
  | nil => simp [aget, aset]
  | cons p rest ih =>
    by_cases hk : k = p.1
    · simp [aset, hk, aget]
    · simp [aset, hk, aget, ih]

/-- Writing one key leaves every other key's value unchanged. -/
theorem aget_aset_ne {α β : Type} [DecidableEq α] (l : List (α × β)) (k k' : α)
    (v : β) (h : k' ≠ k) : aget (aset l k v) k' = aget l k' := by
  induction l with
  | nil => simp [aget, aset, h]
  | cons p rest ih =>
    by_cases hk : k = p.1
    · subst hk
      simp [aset, aget, h]
    · by_cases hk2 : k' = p.1 <;> simp [aset, hk, aget, hk2, ih]

/-- Membership in an updated association list. -/
theorem mem_aset {α β : Type} [DecidableEq α] {l : List (α × β)} {k : α}
    {v : β} {p : α × β} (h : p ∈ aset l k v) : p = (k, v) ∨ p ∈ l := by
  induction l with
  | nil => simpa [aset] using h
  | cons q rest ih =>
    by_cases hk : k = q.1
    · rw [aset, if_pos hk] at h
      rcases List.mem_cons.mp h with h1 | h1
      · exact Or.inl (by simp [h1, hk])
      · exact Or.inr (List.mem_cons_of_mem q h1)
    · rw [aset, if_neg hk] at h
      rcases List.mem_cons.mp h with h1 | h1
      · exact Or.inr (h1 ▸ List.mem_cons_self q rest)
      · rcases ih h1 with h2 | h2
        · exact Or.inl h2
        · exact Or.inr (List.mem_cons_of_mem q h2)

/-- A successful lookup comes from a stored pair. -/
theorem aget_mem {α β : Type} [DecidableEq α] {l : List (α × β)} {k : α}
    {v : β} (h : aget l k = some v) : (k, v) ∈ l := by
  induction l with
  | nil => simp [aget] at h
  | cons p rest ih =>
    rw [aget] at h
    split at h
    · rename_i heq
      cases h
      cases p
      simp at heq
      simp [heq]
    · exact List.mem_cons_of_mem p (ih h)

/-! ## Lemmas about the loader -/

/-- A failing BusMaster load leaves the loader untouched. -/
theorem load_busmaster_fail_preserve (st : Loader) (lines : List String)
    (h : (load_busmaster st lines).1 = false) :
    (load_busmaster st lines).2 = st := by
  by_cases hc : (bmParse lines).acc.isEmpty
  · simp [load_busmaster, hc]
  · simp [load_busmaster, hc] at h

/-- A failing generic-adapter load leaves the loader untouched. -/
theorem load_can_log_fail_preserve (st : Loader) (file : InputFile)
    (h : (load_can_log st file).1 = false) :
    (load_can_log st file).2 = st := by
  cases hr : file.readerFrames with
  | none => simp [load_can_log, hr]
  | some fs =>
    by_cases hc : fs.isEmpty
    · simp [load_can_log, hr, hc]
    · simp [load_can_log, hr, hc] at h

/-! ## Claims about the loader -/

/-- C3 counterexample: a tabular load whose schema lacks an id column
reports failure, yet the previously loaded Recording has been replaced by
the partially-normalized table (`_load_csv` assigns `self.df` before
validating). -/
theorem claim_C3_counterexample :
    (load_log ⟨none, emptyDF, []⟩
        ⟨".csv", true, [], some ⟨["Time", "Data"], [[.num 0, .str "0102"]]⟩,
         none⟩).1 = false ∧
    (load_log ⟨none, emptyDF, []⟩
        ⟨".csv", true, [], some ⟨["Time", "Data"], [[.num 0, .str "0102"]]⟩,
         none⟩).2.df ≠ emptyDF := by
  constructor
  · decide
  · decide

/-- C3 (amended): every failing `load_log` call outside the tabular path
leaves the previous Recording untouched, and a tabular call whose file read
itself fails also preserves it; only a tabular schema/parse error after a
successful read escapes with the Recording already replaced. -/
theorem claim_C3_failed_load_preserves_recording :
    (∀ (st : Loader) (file : InputFile),
      file.ext ≠ ".csv" → (load_log st file).1 = false →
      (load_log st file).2 = st) ∧
    (∀ (st : Loader) (file : InputFile),
      file.ext = ".csv" →
      (file.readable = false ∨ file.csvParse = none) →
      load_log st file = (false, st)) := by
  constructor
  · intro st file hext hfail
    rw [load_log] at hfail ⊢
    by_cases hb1 : file.ext = ".log" ∧ file.readable = false
    · rw [if_pos hb1] at hfail ⊢
    · rw [if_neg hb1] at hfail ⊢
      by_cases hb2 : file.ext = ".log" ∧
          pyStartsWith (file.lines.headD "") "***BUSMASTER" = true
      · rw [if_pos hb2] at hfail ⊢
        exact load_busmaster_fail_preserve st file.lines hfail
      · rw [if_neg hb2] at hfail ⊢
        rw [if_neg hext] at hfail ⊢
        by_cases hb4 : file.ext = ".asc" ∨ file.ext = ".log" ∨ file.ext = ".blf"
        · rw [if_pos hb4] at hfail ⊢
          exact load_can_log_fail_preserve st file hfail
        · rw [if_neg hb4] at hfail ⊢
  · intro st file hext hbad
    have h1 : ¬ (file.ext = ".log" ∧ file.readable = false) := by
      rintro ⟨h, _⟩
      rw [hext] at h
      exact absurd h (by decide)
    have h2 : ¬ (file.ext = ".log" ∧
        pyStartsWith (file.lines.headD "") "***BUSMASTER" = true) := by
      rintro ⟨h, _⟩
      rw [hext] at h
      exact absurd h (by decide)
    rw [load_log, if_neg h1, if_neg h2, if_pos hext]
    rcases hbad with h | h
    · simp [load_csv, h]
    · cases hrd : file.readable <;> simp [load_csv, h, hrd]

/-- Witness for C3 (amended): an unsupported extension fails and preserves
the Recording of a loader that already holds one frame. -/
theorem claim_C3_witness :
    (load_log ⟨none, framesDF [⟨0, 1, 1, "01", 1⟩], []⟩
        ⟨".xyz", true, [], none, none⟩).2 =
      ⟨none, framesDF [⟨0, 1, 1, "01", 1⟩], []⟩ :=
  claim_C3_failed_load_preserves_recording.1
    ⟨none, framesDF [⟨0, 1, 1, "01", 1⟩], []⟩ ⟨".xyz", true, [], none, none⟩
    (by decide) (by decide)

/-- Every `_load_busmaster` outcome: failure, or the cache was cleared. -/
theorem load_busmaster_cases (st : Loader) (lines : List String) :
    (load_busmaster st lines).1 = false ∨
    (load_busmaster st lines).2.decoded_cache = [] := by
  by_cases hc : (bmParse lines).acc.isEmpty <;> simp [load_busmaster, hc]

/-- Every `_load_csv` outcome: failure, or the cache was cleared. -/
theorem load_csv_cases (st : Loader) (file : InputFile) :
    (load_csv st file).1 = false ∨ (load_csv st file).2.decoded_cache = [] := by
  simp only [load_csv]
  split
  · exact Or.inl rfl
  · split
    · exact Or.inl rfl
    · split
      · split
        · exact Or.inl rfl
        · split
          · exact Or.inl rfl
          · exact Or.inr rfl
      · split
        · exact Or.inl rfl
        · exact Or.inr rfl

/-- Every `_load_can_log` outcome: failure, or the cache was cleared. -/
theorem load_can_log_cases (st : Loader) (file : InputFile) :
    (load_can_log st file).1 = false ∨
    (load_can_log st file).2.decoded_cache = [] := by
  cases hr : file.readerFrames with
  | none => simp [load_can_log, hr]
  | some fs =>
    by_cases hc : fs.isEmpty <;> simp [load_can_log, hr, hc]

/-- C4 counterexample: a successful `load_dbc` leaves a nonempty Decode
Cache in place instead of clearing it. -/
theorem claim_C4_counterexample :
    (load_dbc ⟨none, emptyDF, [(0, "cached")]⟩ (some ⟨[]⟩)).1 = true ∧
    (load_dbc ⟨none, emptyDF, [(0, "cached")]⟩ (some ⟨[]⟩)).2.decoded_cache ≠
      [] := by
  constructor
  · rfl
  · intro h
    simp [load_dbc] at h

/-- C4 (amended): the Decode Cache is cleared in full whenever a log load
replaces the Recording; a successful `load_dbc` does NOT clear it (the
loaded database changes with the cache intact); and each cache entry, once
written for a frame index, is returned as-is on a hit and never overwritten
or removed by later reads. -/
theorem claim_C4_cache_lifecycle :
    (∀ (st : Loader) (file : InputFile),
      (load_log st file).1 = true → (load_log st file).2.decoded_cache = []) ∧
    (∀ (st : Loader) (d : Option Database),
      (load_dbc st d).2.decoded_cache = st.decoded_cache) ∧
    (∀ (st : Loader) (index : Nat) (s : String),
      aget st.decoded_cache index = some s →
      get_decoded_string st index = some (s, st)) ∧
    (∀ (st : Loader) (index j : Nat) (s res : String) (st2 : Loader),
      get_decoded_string st index = some (res, st2) →
      aget st.decoded_cache j = some s →
      aget st2.decoded_cache j = some s) := by
  refine ⟨?_, ?_, ?_, ?_⟩
  · intro st file hok
    rw [load_log] at hok ⊢
    by_cases hb1 : file.ext = ".log" ∧ file.readable = false
    · rw [if_pos hb1] at hok
      simp at hok
    · rw [if_neg hb1] at hok ⊢
      by_cases hb2 : file.ext = ".log" ∧
          pyStartsWith (file.lines.headD "") "***BUSMASTER" = true
      · rw [if_pos hb2] at hok ⊢
        rcases load_busmaster_cases st file.lines with h | h
        · rw [h] at hok
          cases hok
        · exact h
      · rw [if_neg hb2] at hok ⊢
        by_cases hb3 : file.ext = ".csv"
        · rw [if_pos hb3] at hok ⊢
          rcases load_csv_cases st file with h | h
          · rw [h] at hok
            cases hok
          · exact h
        · rw [if_neg hb3] at hok ⊢
          by_cases hb4 : file.ext = ".asc" ∨ file.ext = ".log" ∨
              file.ext = ".blf"
          · rw [if_pos hb4] at hok ⊢
            rcases load_can_log_cases st file with h | h
            · rw [h] at hok
              cases hok
            · exact h
          · rw [if_neg hb4] at hok
            cases hok
  · intro st d
    cases d <;> rfl
  · intro st index s h
    simp [get_decoded_string, h]
  · intro st index j s res st2 hrun hj
    rw [get_decoded_string] at hrun
    cases hhit : aget st.decoded_cache index with
    | some c =>
      simp only [hhit, Option.some.injEq, Prod.mk.injEq] at hrun
      rw [← hrun.2]
      exact hj
    | none =>
      simp only [hhit] at hrun
      cases hrow : st.df.rows.get? index with
      | none =>
        rw [hrow] at hrun
        cases hrun
      | some row =>
        simp only [hrow] at hrun
        cases hci : colIndex st.df "ID" with
        | none =>
          simp only [hci] at hrun
          cases hrun
        | some iId =>
          cases hcd : colIndex st.df "Data" with
          | none =>
            simp only [hci, hcd] at hrun
            cases hrun
          | some iData =>
            simp only [hci, hcd] at hrun
            cases hhx : hexDecode? (padEven (pyTrim (pyStr (row.getD iData
                (.str ""))))) with
            | none =>
              simp only [hhx, Option.some.injEq, Prod.mk.injEq] at hrun
              rw [← hrun.2]
              exact hj
            | some bytesRep =>
              simp only [hhx, Option.some.injEq, Prod.mk.injEq] at hrun
              have hne : j ≠ index := by
                intro he
                rw [he, hhit] at hj
                cases hj
              rw [← hrun.2]
              simpa [aget_aset_ne st.decoded_cache index j _ hne] using hj

/-- Witness for C4 (amended): a cached index returns its stored string with
the loader unchanged. -/
theorem claim_C4_witness :
    get_decoded_string ⟨none, emptyDF, [(0, "abc")]⟩ 0 =
      some ("abc", ⟨none, emptyDF, [(0, "abc")]⟩) :=
  claim_C4_cache_lifecycle.2.2.1 ⟨none, emptyDF, [(0, "abc")]⟩ 0 "abc"
    (by decide)

/-- With a `.csv` extension, `load_log` is exactly the tabular loader. -/
theorem load_log_csv (st : Loader) (file : InputFile)
    (hext : file.ext = ".csv") : load_log st file = load_csv st file := by
  have h1 : ¬ (file.ext = ".log" ∧ file.readable = false) := by
    rintro ⟨h, _⟩
    rw [hext] at h
    exact absurd h (by decide)
  have h2 : ¬ (file.ext = ".log" ∧
      pyStartsWith (file.lines.headD "") "***BUSMASTER" = true) := by
    rintro ⟨h, _⟩
    rw [hext] at h
    exact absurd h (by decide)
  rw [load_log, if_neg h1, if_neg h2, if_pos hext]

/-- A table without a `Timestamp` column cannot be sorted (`KeyError`). -/
theorem sortStep_no_ts (tbl : DataFrame)
    (h : colIndex tbl "Timestamp" = none) : sortStep tbl = none := by
  simp [sortStep, h]

/-- Replacing a column's cells keeps the headers, hence column positions. -/
theorem colIndex_setCol (df : DataFrame) (i : Nat) (vals : List CVal)
    (nm : String) : colIndex (setCol df i vals) nm = colIndex df nm := rfl

/-- C8 counterexample: a tabular file whose headers map only Timestamp and
ID — no DLC and no Data column at all — loads successfully instead of
failing. -/
theorem claim_C8_counterexample :
    (load_log initLoader
        ⟨".csv", true, [], some ⟨["time", "id"], [[.num 0, .num 7]]⟩,
         none⟩).1 = true ∧
    colIndex (load_log initLoader
        ⟨".csv", true, [], some ⟨["time", "id"], [[.num 0, .num 7]]⟩,
         none⟩).2.df "DLC" = none ∧
    colIndex (load_log initLoader
        ⟨".csv", true, [], some ⟨["time", "id"], [[.num 0, .num 7]]⟩,
         none⟩).2.df "Data" = none := by
  refine ⟨?_, ?_, ?_⟩ <;> decide

/-- C8 (amended): a tabular load fails when the `ID` column or the
`Timestamp` column cannot be mapped from the headers through the alias
table; the `DLC` and `Data` columns are never required. -/
theorem claim_C8_required_columns :
    (∀ (st : Loader) (file : InputFile) (tbl : DataFrame),
      file.ext = ".csv" → file.readable = true → file.csvParse = some tbl →
      colIndex (renameCols (normCols tbl)) "ID" = none →
      (load_log st file).1 = false) ∧
    (∀ (st : Loader) (file : InputFile) (tbl : DataFrame),
      file.ext = ".csv" → file.readable = true → file.csvParse = some tbl →
      colIndex (renameCols (normCols tbl)) "Timestamp" = none →
      (load_log st file).1 = false) := by
  constructor
  · intro st file tbl hext hread hparse hID
    rw [load_log_csv st file hext, load_csv, hread]
    simp only [if_true, hparse, hID]
  · intro st file tbl hext hread hparse hTs
    rw [load_log_csv st file hext, load_csv, hread]
    simp only [if_true, hparse]
    cases hID : colIndex (renameCols (normCols tbl)) "ID" with
    | none => rfl
    | some i =>
      simp only []
      by_cases hd : dtypeObject (getCol (renameCols (normCols tbl)) i)
      · rw [if_pos hd]
        cases hconv : convertIdCol (getCol (renameCols (normCols tbl)) i) with
        | none => rfl
        | some ids =>
          simp only []
          rw [sortStep_no_ts _ (by rw [colIndex_setCol]; exact hTs)]
      · rw [if_neg hd, sortStep_no_ts _ hTs]

/-- Witness for C8 (amended): a table with no id-like header fails. -/
theorem claim_C8_witness :
    (load_log initLoader
        ⟨".csv", true, [], some ⟨["time", "payload"], [[.num 0, .str "01"]]⟩,
         none⟩).1 = false :=
  claim_C8_required_columns.1 initLoader
    ⟨".csv", true, [], some ⟨["time", "payload"], [[.num 0, .str "01"]]⟩, none⟩
    ⟨["time", "payload"], [[.num 0, .str "01"]]⟩
    (by decide) (by decide) (by decide) (by decide)

/-- A successful `sort_values('Timestamp')` whose result column is
all-numeric leaves the rows sorted by that column's numeric value. -/
theorem sortStep_sorted (tbl stbl : DataFrame) (i : Nat)
    (hs : sortStep tbl = some stbl)
    (hci : colIndex stbl "Timestamp" = some i)
    (hnum : ∀ v ∈ getCol stbl i, isStrCV v = false) :
    List.Sorted (rowLeQ i) stbl.rows := by
  rw [sortStep] at hs
  cases hj : colIndex tbl "Timestamp" with
  | none =>
    simp only [hj] at hs
    cases hs
  | some j =>
    simp only [hj] at hs
    by_cases hb : (getCol tbl j).all (fun v => !(isStrCV v))
    · rw [if_pos hb] at hs
      simp only [Option.some.injEq] at hs
      have hij : i = j := by
        rw [← hs] at hci
        have : colIndex tbl "Timestamp" = some i := hci
        rw [hj] at this
        exact (Option.some.inj this).symm
      rw [← hs, hij]
      exact List.sorted_insertionSort (rowLeQ j) tbl.rows
    · rw [if_neg hb] at hs
      by_cases hb2 : (getCol tbl j).all isStrCV
      · rw [if_pos hb2] at hs
        simp only [Option.some.injEq] at hs
        have hij : i = j := by
          rw [← hs] at hci
          have : colIndex tbl "Timestamp" = some i := hci
          rw [hj] at this
          exact (Option.some.inj this).symm
        have hempty : stbl.rows = [] := by
          rw [List.eq_nil_iff_forall_not_mem]
          intro r hr
          have hcell : (fun rr => rr.getD i (.str "")) r ∈ getCol stbl i :=
            List.mem_map_of_mem _ hr
          have hnum2 := hnum _ hcell
          have hrt : r ∈ tbl.rows := by
            have hperm := List.perm_insertionSort (rowLeS j) tbl.rows
            rw [← hs] at hr
            exact hperm.mem_iff.mp hr
          have hstr := List.all_eq_true.mp hb2 _
            (List.mem_map_of_mem (fun rr => rr.getD j (.str "")) hrt)
          rw [hij] at hnum2
          rw [hnum2] at hstr
          cases hstr
        rw [hempty]
        exact List.sorted_nil
      · rw [if_neg hb2] at hs
        cases hs

/-- C7 counterexample: a vendor-text (BusMaster) file with out-of-order
line times loads successfully into a Recording whose timestamps are not
ascending. -/
theorem claim_C7_counterexample :
    (load_log ⟨none, emptyDF, []⟩
        ⟨".log", true,
         ["***BUSMASTER v3.2.2",
          "00:00:00:0000 Rx 1 0x10 s 1 AA",
          "00:00:10:0000 Rx 1 0x10 s 1 BB",
          "00:00:05:0000 Rx 1 0x10 s 1 CC"], none, none⟩).1 = true ∧
    ((load_log ⟨none, emptyDF, []⟩
        ⟨".log", true,
         ["***BUSMASTER v3.2.2",
          "00:00:00:0000 Rx 1 0x10 s 1 AA",
          "00:00:10:0000 Rx 1 0x10 s 1 BB",
          "00:00:05:0000 Rx 1 0x10 s 1 CC"], none, none⟩).2.df.rows.map
      (fun r => cvalQ (r.getD 0 (.str "")))) = [0, 10, 5] ∧
    ¬ List.Sorted (fun a b => a ≤ b) [(0 : ℚ), 10, 5] := by
  refine ⟨?_, ?_, ?_⟩
  · with_unfolding_all decide
  · with_unfolding_all decide
  · intro h
    have h2 : (10 : ℚ) ≤ 5 := (List.sorted_cons.mp (List.sorted_cons.mp h).2).1
      5 (by simp)
    norm_num at h2

/-- C7 (amended): after a successful tabular (CSV) load whose Timestamp
column is numeric, the Recording is sorted ascending by timestamp; the
vendor text parser emits frames in input order without sorting (so its
Recording is ascending only when the file is). -/
theorem claim_C7_sorted_by_dialect :
    (∀ (st : Loader) (file : InputFile) (i : Nat),
      file.ext = ".csv" →
      (load_log st file).1 = true →
      colIndex (load_log st file).2.df "Timestamp" = some i →
      (∀ v ∈ getCol (load_log st file).2.df i, isStrCV v = false) →
      List.Sorted (rowLeQ i) (load_log st file).2.df.rows) ∧
    (∀ (st : Loader) (lines : List String),
      (load_busmaster st lines).1 = true →
      (load_busmaster st lines).2.df.rows = (bmParse lines).acc.map frameRow) := by
  constructor
  · intro st file i hext hok hci hnum
    rw [load_log_csv st file hext] at hok hci hnum ⊢
    rw [load_csv] at hok hci hnum ⊢
    cases hp : (if file.readable = true then file.csvParse else none) with
    | none =>
      rw [hp] at hok
      cases hok
    | some raw =>
      simp only [hp] at hok hci hnum ⊢
      cases hID : colIndex (renameCols (normCols raw)) "ID" with
      | none =>
        simp only [hID] at hok
        cases hok
      | some iID =>
        simp only [hID] at hok hci hnum ⊢
        by_cases hd : dtypeObject (getCol (renameCols (normCols raw)) iID)
        · simp only [if_pos hd] at hok hci hnum ⊢
          cases hconv : convertIdCol (getCol (renameCols (normCols raw)) iID) with
          | none =>
            simp only [hconv] at hok
            cases hok
          | some ids =>
            simp only [hconv] at hok hci hnum ⊢
            cases hsort : sortStep (setCol (renameCols (normCols raw)) iID
                (ids.map (fun n => CVal.num (n : ℚ)))) with
            | none =>
              simp only [hsort] at hok
              cases hok
            | some stbl =>
              simp only [hsort] at hci hnum ⊢
              exact sortStep_sorted _ stbl i hsort hci hnum
        · simp only [if_neg hd] at hok hci hnum ⊢
          cases hsort : sortStep (renameCols (normCols raw)) with
          | none =>
            simp only [hsort] at hok
            cases hok
          | some stbl =>
            simp only [hsort] at hci hnum ⊢
            exact sortStep_sorted _ stbl i hsort hci hnum
  · intro st lines hok
    by_cases hc : (bmParse lines).acc.isEmpty
    · simp [load_busmaster, hc] at hok
    · simp [load_busmaster, hc, framesDF]

/-- Witness for C7 (amended): a two-row csv with out-of-order numeric
timestamps loads into rows sorted by the Timestamp column. -/
theorem claim_C7_witness :
    List.Sorted (rowLeQ 0)
      (load_log initLoader
        ⟨".csv", true, [],
         some ⟨["time", "id"], [[.num 5, .num 1], [.num 2, .num 2]]⟩,
         none⟩).2.df.rows :=
  claim_C7_sorted_by_dialect.1 initLoader
    ⟨".csv", true, [],
     some ⟨["time", "id"], [[.num 5, .num 1], [.num 2, .num 2]]⟩, none⟩ 0
    (by decide) (by decide) (by decide) (by decide)

/-! ## Lemmas about the trace state machine -/

/-- Lane `i` of the byte-color loop: the stored lane state steps by
`laneStep`, diffing against the previous byte when one exists. -/
theorem computeStates_lane :
    ∀ (cb pb : List String) (bs : List Nat) (i : Nat) (bi : String),
      cb.get? i = some bi →
      (computeStates cb pb bs).get? i =
        some (laneStep (bs.getD i 0)
          (match pb.get? i with | some p => bi != p | none => false)) := by
  intro cb
  induction cb with
  | nil =>
    intro pb bs i bi hbi
    simp at hbi
  | cons b cbs ih =>
    intro pb bs i bi hbi
    cases i with
    | zero =>
      simp only [List.get?] at hbi
      cases hbi
      cases pb with
      | nil =>
        cases bs with
        | nil => simp [computeStates, List.get?]
        | cons b0 bsr => simp [computeStates, List.get?, List.getD]
      | cons p pr =>
        cases bs with
        | nil => simp [computeStates, List.get?]
        | cons b0 bsr => simp [computeStates, List.get?, List.getD]
    | succ n =>
      simp only [List.get?] at hbi
      have htails : pb.tail.get? n = pb.get? (n + 1) := by
        cases pb <;> simp
      have htailb : bs.tail.getD n 0 = bs.getD (n + 1) 0 := by
        cases bs <;> simp [List.getD]
      have hr := ih pb.tail bs.tail n bi hbi
      rw [htails, htailb] at hr
      simp only [computeStates, List.get?]
      exact hr

/-- Processing with no previous payload over an all-Fresh lane vector
yields the all-Fresh vector of the current length. -/
theorem computeStates_fresh :
    ∀ (cb : List String) (bs : List Nat), (∀ x ∈ bs, x = 0) →
      computeStates cb [] bs = List.replicate cb.length 0 := by
  intro cb
  induction cb with
  | nil => intro bs _; rfl
  | cons b cbs ih =>
    intro bs hz
    have hhead : bs.headD 0 = 0 := by
      cases bs with
      | nil => rfl
      | cons x r => exact hz x (List.mem_cons_self x r)
    have htail : ∀ x ∈ bs.tail, x = 0 := by
      intro x hx
      exact hz x (List.mem_of_mem_tail hx)
    simp only [computeStates, hhead, List.length_cons, List.replicate,
      List.tail_nil]
    rw [ih bs.tail htail]
    rfl

/-- The stored byte-state vector written by `process_frame`. -/
theorem processFrame_byte_states (db : Option Database) (ctx : TraceCtx)
    (f : Frame) :
    (processFrame db ctx f).byte_states =
      aset ctx.byte_states f.ID
        (computeStates (chunk2 (padEven f.Data))
          (chunk2 (padEven ((aget ctx.last_data f.ID).getD "")))
          (match aget ctx.byte_states f.ID with
           | none => List.replicate (chunk2 (padEven f.Data)).length 0
           | some v =>
             if v.length ≠ (chunk2 (padEven f.Data)).length then
               List.replicate (chunk2 (padEven f.Data)).length 0
             else v)) := rfl

/-- `process_frame` records the (padded) payload under its id. -/
theorem processFrame_last_data (db : Option Database) (ctx : TraceCtx)
    (f : Frame) :
    (processFrame db ctx f).last_data =
      aset ctx.last_data f.ID (padEven f.Data) := rfl

/-- The signal loop never touches `last_signals` entries of other ids. -/
theorem sigStep_fold_fst_ne (si : List (Int × String)) (canId : Int) :
    ∀ (items : List (String × CVal))
      (acc : List ((Int × String) × CVal) × List ((Int × String) × Nat))
      (i : Int) (s : String), i ≠ canId →
      aget (items.foldl (sigStep si canId) acc).1 (i, s) = aget acc.1 (i, s) := by
  intro items
  induction items with
  | nil =>
    intro acc i s _
    rfl
  | cons it rest ih =>
    intro acc i s h
    rw [List.foldl_cons, ih _ i s h, sigStep]
    split
    · exact aget_aset_ne _ _ _ _ (fun he => h (congrArg Prod.fst he))
    · rfl

/-- The signal loop, fed distinct names none of which has a previous value,
writes only Fresh (0) signal states. -/
theorem sigStep_fold_zero (si : List (Int × String)) (canId : Int) :
    ∀ (items : List (String × CVal))
      (acc : List ((Int × String) × CVal) × List ((Int × String) × Nat)),
      (∀ q ∈ acc.2, q.2 = 0) →
      (∀ it ∈ items, aget acc.1 (canId, it.1) = none) →
      (items.map Prod.fst).Nodup →
      ∀ q ∈ (items.foldl (sigStep si canId) acc).2, q.2 = 0 := by
  intro items
  induction items with
  | nil =>
    intro acc hz _ _ q hq
    exact hz q hq
  | cons it rest ih =>
    intro acc hz hnone hnd q hq
    rw [List.foldl_cons] at hq
    have hold : aget acc.1 (canId, it.1) = none :=
      hnone it (List.mem_cons_self it rest)
    have hzstep : ∀ q2 ∈ (sigStep si canId acc it).2, q2.2 = 0 := by
      rw [sigStep]
      split
      · intro q2 hq2
        simp only [hold] at hq2
        have hstate : ((aget acc.2 (canId, it.1)).getD 0) = 0 := by
          cases hgs : aget acc.2 (canId, it.1) with
          | none => rfl
          | some w =>
            have := hz (⟨(canId, it.1), w⟩) (aget_mem hgs)
            simpa using this
        rw [hstate] at hq2
        rcases mem_aset hq2 with h1 | h1
        · rw [h1]
          rfl
        · exact hz q2 h1
      · exact hz
    have hnstep : ∀ it2 ∈ rest,
        aget (sigStep si canId acc it).1 (canId, it2.1) = none := by
      intro it2 h2
      rw [sigStep]
      split
      · have hne : (canId, it2.1) ≠ (canId, it.1) := by
          intro he
          have : it2.1 = it.1 := congrArg Prod.snd he
          have hmem : it.1 ∈ rest.map Prod.fst :=
            this ▸ List.mem_map_of_mem Prod.fst h2
          exact (List.nodup_cons.mp hnd).1 hmem
        rw [aget_aset_ne _ _ _ _ hne]
        exact hnone it2 (List.mem_cons_of_mem it h2)
      · exact hnone it2 (List.mem_cons_of_mem it h2)
    exact ih _ hzstep hnstep (List.nodup_cons.mp hnd).2 q hq

/-- Processing a frame whose id has no previous payload keeps every stored
byte-lane state Fresh. -/
theorem processFrame_bytes_zero (db : Option Database) (ctx : TraceCtx)
    (f : Frame)
    (hz : ∀ p ∈ ctx.byte_states, ∀ x ∈ p.2, x = 0)
    (hld : aget ctx.last_data f.ID = none) :
    ∀ p ∈ (processFrame db ctx f).byte_states, ∀ x ∈ p.2, x = 0 := by
  intro p hp
  rw [processFrame_byte_states, hld] at hp
  have hprev : chunk2 (padEven ((none : Option String).getD "")) = [] := rfl
  rw [hprev] at hp
  cases hb : aget ctx.byte_states f.ID with
  | none =>
    simp only [hb] at hp
    rw [computeStates_fresh _ _ (fun x hx => List.eq_of_mem_replicate hx)] at hp
    rcases mem_aset hp with h1 | h1
    · intro x hx
      rw [h1] at hx
      exact List.eq_of_mem_replicate hx
    · exact hz p h1
  | some v =>
    simp only [hb] at hp
    by_cases hlen : v.length ≠ (chunk2 (padEven f.Data)).length
    · rw [if_pos hlen] at hp
      rw [computeStates_fresh _ _ (fun x hx => List.eq_of_mem_replicate hx)] at hp
      rcases mem_aset hp with h1 | h1
      · intro x hx
        rw [h1] at hx
        exact List.eq_of_mem_replicate hx
      · exact hz p h1
    · rw [if_neg hlen] at hp
      rw [computeStates_fresh _ _ (hz (f.ID, v) (aget_mem hb))] at hp
      rcases mem_aset hp with h1 | h1
      · intro x hx
        rw [h1] at hx
        exact List.eq_of_mem_replicate hx
      · exact hz p h1

/-- Processing a frame whose id/signal keys have no previous values keeps
every stored signal state Fresh. -/
theorem processFrame_sigs_zero (db : Option Database) (ctx : TraceCtx)
    (f : Frame)
    (hz : ∀ q ∈ ctx.signal_states, q.2 = 0)
    (hls : ∀ s, aget ctx.last_signals (f.ID, s) = none)
    (hwf : DBWF db) :
    ∀ q ∈ (processFrame db ctx f).signal_states, q.2 = 0 := by
  intro q hq
  cases db with
  | none =>
    simp only [processFrame] at hq
    exact hz q hq
  | some d =>
    simp only [processFrame] at hq
    cases hhx : hexDecode? (padEven f.Data) with
    | none =>
      simp only [hhx] at hq
      exact hz q hq
    | some br =>
      simp only [hhx] at hq
      cases hm : aget d.msgs f.ID with
      | none =>
        simp only [hm] at hq
        exact hz q hq
      | some m =>
        simp only [hm] at hq
        cases hd : m.decode br with
        | none =>
          simp only [hd] at hq
          exact hz q hq
        | some decoded =>
          simp only [hd] at hq
          have hnd : (decoded.map Prod.fst).Nodup :=
            hwf (f.ID, m) (aget_mem hm) br decoded hd
          exact sigStep_fold_zero _ f.ID decoded
            (ctx.last_signals, ctx.signal_states) hz
            (fun it _ => hls it.1) hnd q hq

/-- Processing a frame leaves `last_data` of every other id unchanged. -/
theorem processFrame_last_data_ne (db : Option Database) (ctx : TraceCtx)
    (f : Frame) (i : Int) (h : i ≠ f.ID) :
    aget (processFrame db ctx f).last_data i = aget ctx.last_data i := by
  rw [processFrame_last_data]
  exact aget_aset_ne _ _ _ _ h

/-- Processing a frame leaves `last_signals` of every other id unchanged. -/
theorem processFrame_last_signals_ne (db : Option Database) (ctx : TraceCtx)
    (f : Frame) (i : Int) (s : String) (h : i ≠ f.ID) :
    aget (processFrame db ctx f).last_signals (i, s) =
      aget ctx.last_signals (i, s) := by
  cases db with
  | none => rfl
  | some d =>
    simp only [processFrame]
    cases hhx : hexDecode? (padEven f.Data) with
    | none => simp only [hhx]
    | some br =>
      simp only [hhx]
      cases hm : aget d.msgs f.ID with
      | none => simp only [hm]
      | some m =>
        simp only [hm]
        cases hd : m.decode br with
        | none => simp only [hd]
        | some decoded =>
          simp only [hd]
          exact sigStep_fold_fst_ne _ f.ID decoded
            (ctx.last_signals, ctx.signal_states) i s h

/-- The per-row byte reset of the seek loop keeps all lane states Fresh. -/
theorem resetBytes_bytes_zero (ctx : TraceCtx) (cid : Int)
    (hz : ∀ p ∈ ctx.byte_states, ∀ x ∈ p.2, x = 0) :
    ∀ p ∈ (resetBytes ctx cid).byte_states, ∀ x ∈ p.2, x = 0 := by
  rw [resetBytes]
  cases hb : aget ctx.byte_states cid with
  | none => exact hz
  | some v =>
    intro p hp
    rcases mem_aset hp with h1 | h1
    · intro x hx
      rw [h1] at hx
      exact List.eq_of_mem_replicate hx
    · exact hz p h1

/-- The seek-loop byte reset touches only `byte_states`. -/
theorem resetBytes_signal_states (ctx : TraceCtx) (cid : Int) :
    (resetBytes ctx cid).signal_states = ctx.signal_states := by
  rw [resetBytes]
  cases aget ctx.byte_states cid <;> rfl

/-- The seek-loop byte reset leaves `last_data` unchanged. -/
theorem resetBytes_last_data (ctx : TraceCtx) (cid : Int) :
    (resetBytes ctx cid).last_data = ctx.last_data := by
  rw [resetBytes]
  cases aget ctx.byte_states cid <;> rfl

/-- The seek-loop byte reset leaves `last_signals` unchanged. -/
theorem resetBytes_last_signals (ctx : TraceCtx) (cid : Int) :
    (resetBytes ctx cid).last_signals = ctx.last_signals := by
  rw [resetBytes]
  cases aget ctx.byte_states cid <;> rfl

/-- The latest-per-id selection only keeps frames of the subset. -/
theorem latestPerId_subset :
    ∀ (l : List Frame) (g : Frame), g ∈ latestPerId l → g ∈ l := by
  intro l
  induction l with
  | nil =>
    intro g h
    simpa [latestPerId] using h
  | cons f rest ih =>
    intro g h
    rw [latestPerId] at h
    split at h
    · exact List.mem_cons_of_mem f (ih g h)
    · rcases List.mem_cons.mp h with h1 | h1
      · rw [h1]
        exact List.mem_cons_self f rest
      · exact List.mem_cons_of_mem f (ih g h1)

/-- The latest-per-id selection yields pairwise-distinct arbitration ids. -/
theorem latestPerId_nodup :
    ∀ (l : List Frame), ((latestPerId l).map Frame.ID).Nodup := by
  intro l
  induction l with
  | nil => simp [latestPerId]
  | cons f rest ih =>
    rw [latestPerId]
    split
    · exact ih
    · rename_i hne
      rw [List.map_cons, List.nodup_cons]
      refine ⟨?_, ih⟩
      intro hmem
      rcases List.mem_map.mp hmem with ⟨g, hg, hgid⟩
      apply hne
      rw [List.any_eq_true]
      exact ⟨g, latestPerId_subset rest g hg, by rw [beq_iff_eq]; exact hgid⟩

/-- Folding the seek loop over frames with pairwise-distinct ids, starting
from a context that is all-Fresh and has no last-known data for those ids,
ends all-Fresh. -/
theorem seekFold_allFresh (db : Option Database) (hwf : DBWF db) :
    ∀ (l : List Frame) (ctx : TraceCtx),
      (l.map Frame.ID).Nodup →
      (∀ p ∈ ctx.byte_states, ∀ x ∈ p.2, x = 0) →
      (∀ q ∈ ctx.signal_states, q.2 = 0) →
      (∀ g ∈ l, aget ctx.last_data g.ID = none ∧
        ∀ s, aget ctx.last_signals (g.ID, s) = none) →
      allFresh (l.foldl (seekStep db) ctx) := by
  intro l
  induction l with
  | nil =>
    intro ctx _ hb hs _
    exact ⟨hb, hs⟩
  | cons f rest ih =>
    intro ctx hnd hb hs hnone
    rw [List.foldl_cons]
    have hfd := (hnone f (List.mem_cons_self f rest)).1
    have hfs := (hnone f (List.mem_cons_self f rest)).2
    apply ih
    · exact (List.nodup_cons.mp (by simpa using hnd)).2
    · exact resetBytes_bytes_zero _ _ (processFrame_bytes_zero db ctx f hb hfd)
    · rw [seekStep, resetBytes_signal_states]
      exact processFrame_sigs_zero db ctx f hs hfs hwf
    · intro g hg
      have hgne : g.ID ≠ f.ID := by
        intro he
        have hfmem : f.ID ∈ rest.map Frame.ID :=
          he ▸ List.mem_map_of_mem Frame.ID hg
        exact (List.nodup_cons.mp (by simpa using hnd)).1 hfmem
      constructor
      · rw [seekStep, resetBytes_last_data,
          processFrame_last_data_ne db ctx f g.ID hgne]
        exact (hnone g (List.mem_cons_of_mem f hg)).1
      · intro s
        rw [seekStep, resetBytes_last_signals,
          processFrame_last_signals_ne db ctx f g.ID s hgne]
        exact (hnone g (List.mem_cons_of_mem f hg)).2 s

/-! ## Claims about the trace state machine -/

/-- C2: each byte lane obeys the three-state rule under `process_frame`:
the lane's state vector is stored through the byte loop; a lane whose byte
differs from the last-known payload becomes Changed (1); an unchanged lane
promotes Changed to Settled (2), keeps Settled, and keeps Fresh (0); a
first-observed id starts all Fresh and is never marked Changed by the
first observation.  Concretely, one id with byte-0 values 01, 02, 02 steps
Fresh, Changed, Settled. -/
theorem claim_C2_byte_lane_state_machine :
    (∀ (db : Option Database) (ctx : TraceCtx) (f : Frame),
      aget (processFrame db ctx f).byte_states f.ID =
        some (computeStates (chunk2 (padEven f.Data))
          (chunk2 (padEven ((aget ctx.last_data f.ID).getD "")))
          (match aget ctx.byte_states f.ID with
           | none => List.replicate (chunk2 (padEven f.Data)).length 0
           | some v =>
             if v.length ≠ (chunk2 (padEven f.Data)).length then
               List.replicate (chunk2 (padEven f.Data)).length 0
             else v))) ∧
    (∀ (cb pb : List String) (bs : List Nat) (i : Nat) (bi pi2 : String),
      cb.get? i = some bi → pb.get? i = some pi2 → bi ≠ pi2 →
      (computeStates cb pb bs).get? i = some 1) ∧
    (∀ (cb pb : List String) (bs : List Nat) (i : Nat) (bi : String),
      cb.get? i = some bi → pb.get? i = some bi →
      (computeStates cb pb bs).get? i =
        some (if bs.getD i 0 = 1 then 2 else bs.getD i 0)) ∧
    (∀ (db : Option Database) (ctx : TraceCtx) (f : Frame),
      aget ctx.last_data f.ID = none → aget ctx.byte_states f.ID = none →
      aget (processFrame db ctx f).byte_states f.ID =
        some (List.replicate (chunk2 (padEven f.Data)).length 0)) ∧
    (aget (processFrame none emptyCtx ⟨0, 1, 1, "01", 1⟩).byte_states 1 =
        some [0] ∧
     aget (processFrame none (processFrame none emptyCtx
        ⟨0, 1, 1, "01", 1⟩) ⟨1, 1, 1, "02", 1⟩).byte_states 1 = some [1] ∧
     aget (processFrame none (processFrame none (processFrame none emptyCtx
        ⟨0, 1, 1, "01", 1⟩) ⟨1, 1, 1, "02", 1⟩) ⟨2, 1, 1, "02", 1⟩).byte_states
        1 = some [2]) := by
  refine ⟨?_, ?_, ?_, ?_, ?_, ?_, ?_⟩
  · intro db ctx f
    rw [processFrame_byte_states]
    exact aget_aset_self _ _ _
  · intro cb pb bs i bi pi2 hcb hpb hne
    rw [computeStates_lane cb pb bs i bi hcb, hpb]
    simp [laneStep, hne]
  · intro cb pb bs i bi hcb hpb
    rw [computeStates_lane cb pb bs i bi hcb, hpb]
    simp [laneStep]
  · intro db ctx f hld hbs
    rw [processFrame_byte_states, hld, hbs]
    show aget (aset ctx.byte_states f.ID
      (computeStates (chunk2 (padEven f.Data)) []
        (List.replicate (chunk2 (padEven f.Data)).length 0))) f.ID = _
    rw [computeStates_fresh _ _ (fun x hx => List.eq_of_mem_replicate hx)]
    exact aget_aset_self _ _ _
  · decide
  · decide
  · decide

/-- Witness for C2: the Changed rule fires on the concrete lane. -/
theorem claim_C2_witness :
    (computeStates ["02"] ["01"] [0]).get? 0 = some 1 :=
  claim_C2_byte_lane_state_machine.2.1 ["02"] ["01"] [0] 0 "02" "01"
    (by decide) (by decide) (by decide)

/-- C5: with an empty Frame Store, forward step, backward step and a
playback tick are safe no-ops that change nothing — but a seek (the
slider's arbitrary-jump path) moves `current_index`, resets the trace
dictionaries, and then raises an IndexError from `update_ui_common`'s
unguarded row access, contradicting the claim that every navigation
operation on an empty store returns without error and changes nothing. -/
theorem claim_C5_empty_store_navigation :
    (∀ (db : Option Database) (st : UiState), step_forward db [] st = st) ∧
    (∀ (db : Option Database) (st : UiState), step_back db [] st = (st, none)) ∧
    (∀ (db : Option Database) (st : UiState), update_playback db [] st = st) ∧
    (∀ (db : Option Database) (st : UiState) (val : Nat),
      val ≠ st.current_index + 1 →
      (slider_moved db [] st val).2 = some UiErr.indexError) ∧
    ((slider_moved none [] initUi 5).2 = some UiErr.indexError ∧
     (slider_moved none [] initUi 5).1.current_index = 5) := by
  refine ⟨?_, ?_, ?_, ?_, ?_, ?_⟩
  · intro db st
    rfl
  · intro db st
    rfl
  · intro db st
    rfl
  · intro db st val h
    rw [slider_moved, if_neg h]
    simp [seek, update_ui_common]
  · decide
  · decide

/-- Witness for C5: the unguarded seek on the empty store raises. -/
theorem claim_C5_witness :
    (slider_moved none [] initUi 7).2 = some UiErr.indexError :=
  claim_C5_empty_store_navigation.2.2.2.1 none initUi 7 (by decide)

/-- C1: a seek to an in-range index `val` rebuilds the trace context from
empty by processing exactly the most recent frame of each arbitration id
among indices `[0, val]`, ordered by those representative frames' own
timestamps; it lands on `val` without raising, and afterwards every stored
byte-lane state and every stored signal state is Fresh.  (A slider move to
any target other than `current_index + 1` takes exactly this path.) -/
theorem claim_C1_seek_rebuild_all_fresh (db : Option Database)
    (rec : List Frame) (st : UiState) (val : Nat)
    (hwf : DBWF db) (hval : val < rec.length) :
    (seek db rec st val).1.ctx =
      (List.insertionSort tsLe (latestPerId (rec.take (val + 1)))).foldl
        (seekStep db) emptyCtx ∧
    (seek db rec st val).1.current_index = val ∧
    (seek db rec st val).2 = none ∧
    allFresh (seek db rec st val).1.ctx ∧
    (∀ (v2 : Nat), v2 ≠ st.current_index + 1 →
      slider_moved db rec st v2 = seek db rec st v2) := by
  refine ⟨rfl, rfl, ?_, ?_, ?_⟩
  · simp [seek, update_ui_common, hval]
  · show allFresh ((seekFrames rec val).foldl (seekStep db) emptyCtx)
    apply seekFold_allFresh db hwf
    · have hperm : List.Perm (seekFrames rec val)
          (latestPerId (rec.take (val + 1))) :=
        List.perm_insertionSort tsLe (latestPerId (rec.take (val + 1)))
      exact ((hperm.map Frame.ID).nodup_iff).mpr (latestPerId_nodup _)
    · intro p hp
      exact absurd hp (List.not_mem_nil p)
    · intro q hq
      exact absurd hq (List.not_mem_nil q)
    · intro g _
      exact ⟨rfl, fun s => rfl⟩
  · intro v2 h
    rw [slider_moved, if_neg h]

/-- Witness for C1: after a seek to index 2 of a three-frame recording with
two ids, every stored byte and signal state is Fresh. -/
theorem claim_C1_witness :
    allFresh (seek none
      [⟨0, 1, 1, "01", 1⟩, ⟨1, 2, 1, "aa", 1⟩, ⟨2, 1, 1, "02", 1⟩]
      initUi 2).1.ctx :=
  (claim_C1_seek_rebuild_all_fresh none
    [⟨0, 1, 1, "01", 1⟩, ⟨1, 2, 1, "aa", 1⟩, ⟨2, 1, 1, "02", 1⟩]
    initUi 2 trivial (by decide)).2.2.2.1
